import Mathlib

/-!
Verification of the guest transaction memory-layout builder and the
transaction account store (files `guest_instruction.rs`, `guest_slice.rs`,
`guest_transaction.rs`, `transaction_accounts.rs`).

Machine-integer conventions of the embedding: `u64`/`usize` values are `Nat`
with explicit `% 2^64` where the source uses plain (wrapping) arithmetic and
explicit clamping where the source uses `saturating_add`/`saturating_mul`;
`usize → u64` and `u8 → u16`/`u8 → usize` casts are lossless on the reference
64-bit target and are modelled as the identity.  `i8`/`i64`/`i128` values are
`Int` with explicit clamps for saturating operations and explicit range checks
for checked operations.  Code that can panic (slice indexing, `unwrap`) is
modelled in `Option`, `none` standing for the panic.
-/

/-- Modelled from the spec: stride of the guest address regions
(`solana_sbpf::ebpf::MM_REGION_SIZE`, external to the repository; the spec
fixes it as a power of two, e.g. `2^32`). -/
def MM_REGION_SIZE : Nat := 2 ^ 32

/-- Modelled from the spec: base of the transaction-context area
(`solana_sbpf::ebpf::MM_TX_AREA`, `TX_CTX_BASE` in the spec; the concrete
value is external to the repository). -/
def MM_TX_AREA : Nat := 5 * MM_REGION_SIZE

/-- Modelled from the spec: base of the instruction-descriptor area
(`solana_sbpf::ebpf::MM_TX_INSTRUCTION_AREA`, `IX_META_BASE` in the spec; the
concrete value is external to the repository). -/
def MM_TX_INSTRUCTION_AREA : Nat := 6 * MM_REGION_SIZE

/-- Modelled from the spec: `solana_sbpf::ebpf::MM_ACCOUNTS_AREA`
(`ACCOUNTS_BASE` in the spec).  The repository's own tests require this value
to coincide with `IX_ACCOUNTS_REGION = 7 * MM_REGION_SIZE` (they recover the
account-reference index as `(pointer - MM_ACCOUNTS_AREA) / 4` for pointers
built from the base `7 * MM_REGION_SIZE`). -/
def MM_ACCOUNTS_AREA : Nat := 7 * MM_REGION_SIZE

/-- Modelled from the spec: base of the return-data scratchpad
(`solana_sbpf::ebpf::MM_RETURN_DATA_AREA`, `RETURN_DATA_BASE` in the spec; the
concrete value is external to the repository). -/
def MM_RETURN_DATA_AREA : Nat := 8 * MM_REGION_SIZE

/-- Modelled from the spec: `solana_sbpf::ebpf::MM_TX_INSTRUCTION_DATA_AREA`.
The repository's tests require this value to coincide with the
instruction-payload base `IX_PAYLOAD_REGION = 256 * MM_REGION_SIZE` (the same
addresses are computed from either constant in `guest_instruction.rs` and
`guest_transaction.rs`). -/
def MM_TX_INSTRUCTION_DATA_AREA : Nat := 256 * MM_REGION_SIZE

/-- `IX_ACCOUNTS_REGION` of `guest_instruction.rs`: base of the
per-instruction account-reference entries (`IX_ACC_META_BASE` in the spec). -/
def IX_ACCOUNTS_REGION : Nat := MM_REGION_SIZE * 7

/-- `IX_PAYLOAD_REGION` of `guest_instruction.rs`: base of the per-instruction
opaque data (`IX_PAYLOAD_BASE` in the spec). -/
def IX_PAYLOAD_REGION : Nat := MM_REGION_SIZE * 256

/-- `u64::saturating_add`. -/
def satAdd64 (a b : Nat) : Nat := min (a + b) (2 ^ 64 - 1)

/-- `u64::saturating_mul` (also `usize::saturating_mul` on the 64-bit target). -/
def satMul64 (a b : Nat) : Nat := min (a * b) (2 ^ 64 - 1)

/-- `GuestSliceReference` of `guest_slice.rs`: a 16-byte guest
(pointer, length) pair, both fields `u64`. -/
structure GuestSliceReference where
  pointer : Nat
  length : Nat
deriving DecidableEq, Repr

/-- `GuestInstruction` of `guest_instruction.rs`. -/
structure GuestInstruction where
  program_id_idx : Nat
  cpi_nesting_level : Nat
  parent_ix_idx : Nat
  ix_accounts : GuestSliceReference
  ix_data : GuestSliceReference
deriving DecidableEq, Repr

/-- `GuestInstructionAccount` of `guest_instruction.rs`: `tx_acc_idx : u16`,
`flags : u16`. -/
structure GuestInstructionAccount where
  tx_acc_idx : Nat
  flags : Nat
deriving DecidableEq, Repr

/-- An `SVMInstruction` as consumed through the message trait:
`program_id_index : u8`, `accounts : &[u8]`, `data : &[u8]`. -/
structure SVMInstruction where
  program_id_index : Nat
  accounts : List Nat
  data : List Nat
deriving DecidableEq, Repr

/-- The read-only message capability used by the builder (`SVMMessage`):
the instruction list plus the signer/writable queries keyed on
transaction-account index. -/
structure SVMMessageModel where
  instructions : List SVMInstruction
  is_signer : Nat → Bool
  is_writable : Nat → Bool

/-- One account-reference entry as pushed by `create_ix_array`:
`flags = (is_signer as u16) | ((is_writable as u16) << 1)`. -/
def mkIxAccount (tx : SVMMessageModel) (acc : Nat) : GuestInstructionAccount :=
  { tx_acc_idx := acc
    flags := Nat.lor (cond (tx.is_signer acc) 1 0)
      (Nat.shiftLeft (cond (tx.is_writable acc) 1 0) 1) }

/-- The loop body of `create_ix_array`, recursing over the remaining
instructions with the running instruction index `ixIdx` and the running
account-reference pointer `accountsAddr` (`accounts_addr` in the source). -/
def createIxAux (tx : SVMMessageModel) :
    List SVMInstruction → Nat → Nat →
      List GuestInstruction × List GuestInstructionAccount
  | [], _, _ => ([], [])
  | instr :: rest, ixIdx, accountsAddr =>
    let refs := instr.accounts.map (mkIxAccount tx)
    let gi : GuestInstruction :=
      { program_id_idx := instr.program_id_index
        cpi_nesting_level := 0
        parent_ix_idx := 65535
        ix_accounts := { pointer := accountsAddr, length := instr.accounts.length }
        ix_data :=
          { pointer := satAdd64 IX_PAYLOAD_REGION (satMul64 ixIdx MM_REGION_SIZE)
            length := instr.data.length } }
    let next := satAdd64 accountsAddr (satMul64 instr.accounts.length 4)
    let tail := createIxAux tx rest (ixIdx + 1) next
    (gi :: tail.1, refs ++ tail.2)

/-- `create_ix_array` of `guest_instruction.rs`
(`size_of::<GuestInstructionAccount>() = 4`). -/
def create_ix_array (tx : SVMMessageModel) :
    List GuestInstruction × List GuestInstructionAccount :=
  createIxAux tx tx.instructions 0 IX_ACCOUNTS_REGION

/-- Number of account references of the instructions strictly before index
`i` (the prefix sum the spec states the pointers with). -/
def accCountBefore (l : List SVMInstruction) (i : Nat) : Nat :=
  ((l.take i).map (fun ins => ins.accounts.length)).sum

/-- Total number of account references of a message. -/
def totalAccCount (l : List SVMInstruction) : Nat :=
  (l.map (fun ins => ins.accounts.length)).sum

lemma createIxAux_snd (tx : SVMMessageModel) :
    ∀ (l : List SVMInstruction) (ixIdx accountsAddr : Nat),
      (createIxAux tx l ixIdx accountsAddr).2 =
        (l.map (fun ins => ins.accounts.map (mkIxAccount tx))).flatten := by
  intro l
  induction l with
  | nil => intro ixIdx a; simp [createIxAux]
  | cons instr rest ih =>
    intro ixIdx a
    simp [createIxAux, ih]

lemma mkIxAccount_flags (tx : SVMMessageModel) (a : Nat) :
    mkIxAccount tx a =
      { tx_acc_idx := a
        flags := (cond (tx.is_signer a) 1 0) + 2 * (cond (tx.is_writable a) 1 0) } := by
  unfold mkIxAccount
  cases hs : tx.is_signer a <;> cases hw : tx.is_writable a <;> rfl

/-- C3: the `ix_account_refs` array produced by `create_ix_array` is exactly
the concatenation, in instruction order, of each instruction's account list
in order; each entry carries the referenced transaction-account index, flag
bit 0 = `is_signer` of that index, flag bit 1 = `is_writable` of that index,
and no other flag bits. -/
theorem create_ix_array_refs_concat (tx : SVMMessageModel) :
    (create_ix_array tx).2 =
      (tx.instructions.map (fun ins =>
        ins.accounts.map (fun a =>
          { tx_acc_idx := a
            flags := (cond (tx.is_signer a) 1 0) +
              2 * (cond (tx.is_writable a) 1 0) : GuestInstructionAccount }))).flatten := by
  rw [create_ix_array, createIxAux_snd]
  congr 1
  apply List.map_congr_left
  intro ins _
  apply List.map_congr_left
  intro a _
  exact mkIxAccount_flags tx a

lemma createIxAux_fst_length (tx : SVMMessageModel) :
    ∀ (l : List SVMInstruction) (ixIdx accountsAddr : Nat),
      (createIxAux tx l ixIdx accountsAddr).1.length = l.length := by
  intro l
  induction l with
  | nil => intro i a; simp [createIxAux]
  | cons instr rest ih => intro i a; simp [createIxAux, ih]


lemma satAdd64_eq (a b : Nat) (h : a + b ≤ 2 ^ 64 - 1) : satAdd64 a b = a + b := by
  unfold satAdd64
  exact min_eq_left h

lemma satMul64_eq (a b : Nat) (h : a * b ≤ 2 ^ 64 - 1) : satMul64 a b = a * b := by
  unfold satMul64
  exact min_eq_left h

lemma createIxAux_cons (tx : SVMMessageModel) (instr : SVMInstruction)
    (rest : List SVMInstruction) (ixIdx a : Nat) :
    createIxAux tx (instr :: rest) ixIdx a =
      ({ program_id_idx := instr.program_id_index
         cpi_nesting_level := 0
         parent_ix_idx := 65535
         ix_accounts := { pointer := a, length := instr.accounts.length }
         ix_data :=
           { pointer := satAdd64 IX_PAYLOAD_REGION (satMul64 ixIdx MM_REGION_SIZE)
             length := instr.data.length } } ::
         (createIxAux tx rest (ixIdx + 1)
           (satAdd64 a (satMul64 instr.accounts.length 4))).1,
       instr.accounts.map (mkIxAccount tx) ++
         (createIxAux tx rest (ixIdx + 1)
           (satAdd64 a (satMul64 instr.accounts.length 4))).2) := rfl

lemma createIxAux_fst_get? (tx : SVMMessageModel) :
    ∀ (l : List SVMInstruction) (ixIdx accountsAddr : Nat),
      accountsAddr + 4 * totalAccCount l ≤ 2 ^ 64 - 1 →
      IX_PAYLOAD_REGION + (ixIdx + l.length) * MM_REGION_SIZE ≤ 2 ^ 64 - 1 →
      ∀ (i : Nat) (ins : SVMInstruction), l[i]? = some ins →
        ∃ gi, (createIxAux tx l ixIdx accountsAddr).1[i]? = some gi ∧
          gi.program_id_idx = ins.program_id_index ∧
          gi.cpi_nesting_level = 0 ∧
          gi.parent_ix_idx = 65535 ∧
          gi.ix_accounts.length = ins.accounts.length ∧
          gi.ix_accounts.pointer = accountsAddr + 4 * accCountBefore l i ∧
          gi.ix_data.pointer = IX_PAYLOAD_REGION + (ixIdx + i) * MM_REGION_SIZE ∧
          gi.ix_data.length = ins.data.length := by
  intro l
  induction l with
  | nil => intro ixIdx a _ _ i ins h; simp at h
  | cons instr rest ih =>
    intro ixIdx a ha hp i ins hi
    have htot : totalAccCount (instr :: rest) =
        instr.accounts.length + totalAccCount rest := by
      simp [totalAccCount]
    cases i with
    | zero =>
      simp only [List.getElem?_cons_zero, Option.some.injEq] at hi
      subst hi
      have hm : ixIdx * MM_REGION_SIZE ≤ 2 ^ 64 - 1 := by
        have h1 : ixIdx * MM_REGION_SIZE ≤ (ixIdx + (rest.length + 1)) * MM_REGION_SIZE :=
          Nat.mul_le_mul_right _ (by omega)
        have h2 := hp
        simp only [List.length_cons] at h2
        omega
      have hadd : IX_PAYLOAD_REGION + ixIdx * MM_REGION_SIZE ≤ 2 ^ 64 - 1 := by
        have h1 : ixIdx * MM_REGION_SIZE ≤ (ixIdx + (rest.length + 1)) * MM_REGION_SIZE :=
          Nat.mul_le_mul_right _ (by omega)
        have h2 := hp
        simp only [List.length_cons] at h2
        omega
      refine ⟨{ program_id_idx := instr.program_id_index
                cpi_nesting_level := 0
                parent_ix_idx := 65535
                ix_accounts := { pointer := a, length := instr.accounts.length }
                ix_data :=
                  { pointer := satAdd64 IX_PAYLOAD_REGION (satMul64 ixIdx MM_REGION_SIZE)
                    length := instr.data.length } },
              ?_, rfl, rfl, rfl, rfl, ?_, ?_, rfl⟩
      · rw [createIxAux_cons]
        simp
      · simp [accCountBefore]
      · simp only
        rw [satMul64_eq _ _ hm, satAdd64_eq _ _ hadd, Nat.add_zero]
    | succ j =>
      simp only [List.getElem?_cons_succ] at hi
      have hmul4 : instr.accounts.length * 4 ≤ 2 ^ 64 - 1 := by
        rw [htot] at ha; omega
      have haddnext : a + instr.accounts.length * 4 ≤ 2 ^ 64 - 1 := by
        rw [htot] at ha; omega
      have hnext : satAdd64 a (satMul64 instr.accounts.length 4) =
          a + 4 * instr.accounts.length := by
        rw [satMul64_eq _ _ hmul4, satAdd64_eq _ _ haddnext]
        ring
      have ha2 : satAdd64 a (satMul64 instr.accounts.length 4) +
          4 * totalAccCount rest ≤ 2 ^ 64 - 1 := by
        rw [hnext]
        rw [htot] at ha
        omega
      have hp2 : IX_PAYLOAD_REGION + ((ixIdx + 1) + rest.length) * MM_REGION_SIZE ≤
          2 ^ 64 - 1 := by
        have h2 := hp
        simp only [List.length_cons] at h2
        have he : (ixIdx + 1) + rest.length = ixIdx + (rest.length + 1) := by omega
        rw [he]
        exact h2
      obtain ⟨gi, hget, h1, h2, h3, h4, h5, h6, h7⟩ :=
        ih (ixIdx + 1) (satAdd64 a (satMul64 instr.accounts.length 4)) ha2 hp2 j ins hi
      refine ⟨gi, ?_, h1, h2, h3, h4, ?_, ?_, h7⟩
      · rw [createIxAux_cons]
        simpa using hget
      · rw [h5, hnext]
        have he : accCountBefore (instr :: rest) (j + 1) =
            instr.accounts.length + accCountBefore rest j := by
          simp [accCountBefore]
        rw [he]
        ring
      · rw [h6]
        have he2 : ixIdx + 1 + j = ixIdx + (j + 1) := by omega
        rw [he2]

/-- C2: for every message (whose pointer computations stay below the `u64`
saturation bound, as every validated transaction's do), `create_ix_array`
produces one descriptor per instruction in declaration order; descriptor `i`
has `ix_accounts.length` equal to the number of account references of
instruction `i`, `ix_accounts.pointer` equal to `IX_ACC_META_BASE` plus the
sum over `j < i` of the account counts of instructions `j` times
`sizeof(GuestInstructionAccount) = 4` (the running pointer is read before
being extended by instruction `i`'s own entries),
`ix_data.pointer = IX_PAYLOAD_BASE + i * MM_REGION_SIZE`, and
`ix_data.length` equal to the length of instruction `i`'s data. -/
theorem create_ix_array_descriptors (tx : SVMMessageModel)
    (ha : IX_ACCOUNTS_REGION + 4 * totalAccCount tx.instructions ≤ 2 ^ 64 - 1)
    (hp : IX_PAYLOAD_REGION + tx.instructions.length * MM_REGION_SIZE ≤ 2 ^ 64 - 1) :
    (create_ix_array tx).1.length = tx.instructions.length ∧
    ∀ (i : Nat) (ins : SVMInstruction), tx.instructions[i]? = some ins →
      ∃ gi, (create_ix_array tx).1[i]? = some gi ∧
        gi.ix_accounts.length = ins.accounts.length ∧
        gi.ix_accounts.pointer =
          IX_ACCOUNTS_REGION + 4 * accCountBefore tx.instructions i ∧
        gi.ix_data.pointer = IX_PAYLOAD_REGION + i * MM_REGION_SIZE ∧
        gi.ix_data.length = ins.data.length := by
  constructor
  · exact createIxAux_fst_length tx tx.instructions 0 IX_ACCOUNTS_REGION
  · intro i ins hi
    obtain ⟨gi, hget, _, _, _, h4, h5, h6, h7⟩ :=
      createIxAux_fst_get? tx tx.instructions 0 IX_ACCOUNTS_REGION ha
        (by simpa using hp) i ins hi
    refine ⟨gi, hget, h4, h5, ?_, h7⟩
    rw [h6]
    simp

/-- The three-instruction message of the repository's unit tests. -/
def testMsg : SVMMessageModel :=
  { instructions :=
      [ { program_id_index := 2, accounts := [1, 2, 3, 4], data := [0, 9, 8, 5] }
      , { program_id_index := 6, accounts := [9, 0], data := [0] }
      , { program_id_index := 8, accounts := [8, 8, 8], data := [1, 2, 3] } ]
    is_signer := fun i => i % 2 == 0
    is_writable := fun i => i % 2 == 1 }

theorem create_ix_array_descriptors_witness :
    ∃ gi, (create_ix_array testMsg).1[1]? = some gi ∧
      gi.ix_accounts.length =
        ({ program_id_index := 6, accounts := [9, 0], data := [0] :
            SVMInstruction }).accounts.length ∧
      gi.ix_accounts.pointer =
        IX_ACCOUNTS_REGION + 4 * accCountBefore testMsg.instructions 1 ∧
      gi.ix_data.pointer = IX_PAYLOAD_REGION + 1 * MM_REGION_SIZE ∧
      gi.ix_data.length =
        ({ program_id_index := 6, accounts := [9, 0], data := [0] :
            SVMInstruction }).data.length :=
  (create_ix_array_descriptors testMsg (by decide) (by decide)).2 1
    { program_id_index := 6, accounts := [9, 0], data := [0] } rfl

/-- A 32-byte public key (`solana_pubkey::Pubkey`), kept as its byte list. -/
structure Pubkey where
  bytes : List Nat
deriving DecidableEq, Repr

/-- `Pubkey::new_from_array([0u8; 32])`. -/
def zeroPubkey : Pubkey := { bytes := List.replicate 32 0 }

/-- The account fields consumed by this core (`solana_account`'s
`ReadableAccount` capability: `lamports`, `data`, `owner`, `executable`,
`rent_epoch`; `data_clone` shares the payload buffer by handle and is
modelled as the payload value itself). -/
structure AccountSharedData where
  lamports : Nat
  data : List Nat
  owner : Pubkey
  executable : Bool
  rent_epoch : Nat
deriving DecidableEq, Repr

/-- `TransactionAccount`: an account key and the matching account. -/
def TransactionAccount : Type := Pubkey × AccountSharedData

/-- `ReturnDataScratchpad` of `guest_transaction.rs`. -/
structure ReturnDataScratchpad where
  pubkey : Pubkey
  slice : GuestSliceReference
deriving DecidableEq, Repr

/-- `GuestTransactionContext` of `guest_transaction.rs`. -/
structure GuestTransactionContext where
  return_data_scratchpad : ReturnDataScratchpad
  cpi_scratchpad : GuestSliceReference
  instruction_idx : Nat
  instruction_num : Nat
  accounts_no : Nat
deriving DecidableEq, Repr

/-- `GuestTransactionAccount` of `guest_transaction.rs`. -/
structure GuestTransactionAccount where
  pubkey : Pubkey
  owner : Pubkey
  lamports : Nat
  data : GuestSliceReference
deriving DecidableEq, Repr

/-- A `solana_sbpf::memory_region::MemoryRegion` as consumed by the sandbox:
a host buffer, a guest base address, and a writability bit. -/
structure MemoryRegion where
  host : List Nat
  vmAddr : Nat
  writable : Bool
deriving DecidableEq, Repr

/-- `MemoryRegion::new_readonly`. -/
def MemoryRegion.new_readonly (host : List Nat) (vmAddr : Nat) : MemoryRegion :=
  { host := host, vmAddr := vmAddr, writable := false }

/-- `MemoryRegion::new_writable`. -/
def MemoryRegion.new_writable (host : List Nat) (vmAddr : Nat) : MemoryRegion :=
  { host := host, vmAddr := vmAddr, writable := true }

/-- The account-descriptor loop of `RuntimeGuestTransaction::new`, carrying
the running account index `idx`. -/
def mkGuestAccounts : List (Pubkey × AccountSharedData) → Nat →
    List GuestTransactionAccount
  | [], _ => []
  | ta :: rest, idx =>
    { pubkey := ta.1
      owner := ta.2.owner
      lamports := ta.2.lamports
      data :=
        { pointer := satAdd64 MM_ACCOUNTS_AREA (satMul64 MM_REGION_SIZE idx)
          length := ta.2.data.length } } :: mkGuestAccounts rest (idx + 1)

/-- `RuntimeGuestTransaction` of `guest_transaction.rs`: the context buffer
(held as its parsed head and account-descriptor table), the two instruction
arrays, the cloned payload handles, and the per-instruction payload regions. -/
structure RuntimeGuestTransaction where
  ctx : GuestTransactionContext
  guestAccounts : List GuestTransactionAccount
  ix_metadata : List GuestInstruction
  ix_accounts : List GuestInstructionAccount
  account_data : List (List Nat)
  payloads : List MemoryRegion
deriving DecidableEq, Repr

/-- The payload-region list built by `RuntimeGuestTransaction::new`
(`MemoryRegion::new_readonly(item.data, MM_TX_INSTRUCTION_DATA_AREA +
MM_REGION_SIZE * idx as u64)`, plain `u64` arithmetic), carrying the running
enumeration index. -/
def mkPayloadRegions : List SVMInstruction → Nat → List MemoryRegion
  | [], _ => []
  | ins :: rest, idx =>
    MemoryRegion.new_readonly ins.data
      ((MM_TX_INSTRUCTION_DATA_AREA + MM_REGION_SIZE * idx) % 2 ^ 64) ::
      mkPayloadRegions rest (idx + 1)

/-- `RuntimeGuestTransaction::new` of `guest_transaction.rs`. -/
def RuntimeGuestTransaction.new (transaction_accounts : List (Pubkey × AccountSharedData))
    (message : SVMMessageModel) : RuntimeGuestTransaction :=
  let pair := create_ix_array message
  { ctx :=
      { return_data_scratchpad :=
          { pubkey := zeroPubkey
            slice := { pointer := MM_RETURN_DATA_AREA, length := 0 } }
        cpi_scratchpad :=
          { pointer := (MM_TX_INSTRUCTION_DATA_AREA +
              MM_REGION_SIZE * message.instructions.length) % 2 ^ 64
            length := 0 }
        instruction_idx := 0
        instruction_num := message.instructions.length
        accounts_no := transaction_accounts.length }
    guestAccounts := mkGuestAccounts transaction_accounts 0
    ix_metadata := pair.1
    ix_accounts := pair.2
    account_data := transaction_accounts.map (fun ta => ta.2.data)
    payloads := mkPayloadRegions message.instructions 0 }

/-- `RuntimeGuestTransaction::retrieve_instruction`: reads
`instruction_idx` back from the context buffer and indexes the descriptor
array with it; the out-of-bounds panic is `none`. -/
def RuntimeGuestTransaction.retrieve_instruction (tx : RuntimeGuestTransaction) :
    Option GuestInstruction :=
  tx.ix_metadata[tx.ctx.instruction_idx]?

/-- `RuntimeGuestTransaction::set_instruction_index`: writes the index into
the context with no validity check (`index as u64` is lossless on the 64-bit
target). -/
def RuntimeGuestTransaction.set_instruction_index (tx : RuntimeGuestTransaction)
    (index : Nat) : RuntimeGuestTransaction :=
  { tx with ctx := { tx.ctx with instruction_idx := index } }

/-- Little-endian bytes of a `u16` field. -/
def u16le (n : Nat) : List Nat := [n % 256, n / 256 % 256]

/-- Little-endian bytes of a `u64` field. -/
def u64le (n : Nat) : List Nat :=
  [n % 256, n / 256 % 256, n / 256 ^ 2 % 256, n / 256 ^ 3 % 256,
   n / 256 ^ 4 % 256, n / 256 ^ 5 % 256, n / 256 ^ 6 % 256, n / 256 ^ 7 % 256]

/-- The 32 bytes of a `Pubkey` (padded or truncated to the fixed width the
Rust array type guarantees). -/
def pubkeyBytes (p : Pubkey) : List Nat :=
  p.bytes.take 32 ++ List.replicate (32 - p.bytes.length) 0

/-- The 16 `repr(C)` bytes of a `GuestSliceReference`. -/
def sliceBytes (s : GuestSliceReference) : List Nat :=
  u64le s.pointer ++ u64le s.length

/-- The 88 `repr(C)` bytes of the `GuestTransactionContext` record
(32 + 16 + 16 + 8 + 8 + 8, no padding: every field is naturally aligned). -/
def ctxBytes (c : GuestTransactionContext) : List Nat :=
  pubkeyBytes c.return_data_scratchpad.pubkey ++
    sliceBytes c.return_data_scratchpad.slice ++
    sliceBytes c.cpi_scratchpad ++
    u64le c.instruction_idx ++
    u64le c.instruction_num ++
    u64le c.accounts_no

/-- The 88 `repr(C)` bytes of a `GuestTransactionAccount` (32 + 32 + 8 + 16). -/
def guestAccountBytes (a : GuestTransactionAccount) : List Nat :=
  pubkeyBytes a.pubkey ++ pubkeyBytes a.owner ++ u64le a.lamports ++
    sliceBytes a.data

/-- `tx_raw_metadata` / `RuntimeGuestTransaction::as_slice`: the context
record followed by the account-descriptor table, one contiguous byte buffer. -/
def rawMetadata (tx : RuntimeGuestTransaction) : List Nat :=
  ctxBytes tx.ctx ++ (tx.guestAccounts.map guestAccountBytes).flatten

/-- The 44 `repr(C)` bytes of a `GuestInstruction` (8 + 2 + 2 + 16 + 16). -/
def guestInstructionBytes (g : GuestInstruction) : List Nat :=
  u64le g.program_id_idx ++ u16le g.cpi_nesting_level ++ u16le g.parent_ix_idx ++
    sliceBytes g.ix_accounts ++ sliceBytes g.ix_data

/-- The 4 `repr(C)` bytes of a `GuestInstructionAccount` (2 + 2). -/
def guestInstructionAccountBytes (g : GuestInstructionAccount) : List Nat :=
  u16le g.tx_acc_idx ++ u16le g.flags

/-- `u64` wrapping subtraction (the release-mode semantics of the `-` in
`prepare_regions`; with the address map in use the subtraction never
underflows). -/
def wrapSub64 (a b : Nat) : Nat := (a + 2 ^ 64 - b % 2 ^ 64) % 2 ^ 64

/-- The per-account loop of `prepare_regions`: the source constructs one
region per referenced account (writable iff `flags >> 1 == 1`) but never
pushes it into the output vector, so only its panics are observable: `false`
stands for an out-of-bounds `unwrap` on the account-reference array or the
payload-handle array. -/
def accountLoopOk (tx : RuntimeGuestTransaction) (start len : Nat) : Bool :=
  (List.range len).all (fun j =>
    match tx.ix_accounts[start + j]? with
    | none => false
    | some r => tx.account_data[r.tx_acc_idx]?.isSome)

/-- `RuntimeGuestTransaction::prepare_regions` of `guest_transaction.rs`:
pushes the context region, the instruction-descriptor region and the
account-reference region, runs the (discarded) per-account loop, then
appends the build-time payload regions; `none` is a panic. -/
def RuntimeGuestTransaction.prepare_regions (tx : RuntimeGuestTransaction) :
    Option (List MemoryRegion) :=
  match tx.retrieve_instruction with
  | none => none
  | some instr =>
    let r1 := MemoryRegion.new_readonly (rawMetadata tx) MM_TX_AREA
    let r2 := MemoryRegion.new_readonly
      ((tx.ix_metadata.map guestInstructionBytes).flatten) MM_TX_INSTRUCTION_AREA
    let r3 := MemoryRegion.new_readonly
      ((tx.ix_accounts.map guestInstructionAccountBytes).flatten)
      MM_TX_INSTRUCTION_DATA_AREA
    let startingIndex := wrapSub64 instr.ix_accounts.pointer MM_ACCOUNTS_AREA / 4
    if accountLoopOk tx startingIndex instr.ix_accounts.length
    then some ([r1, r2, r3] ++ tx.payloads)
    else none

lemma mkGuestAccounts_get? :
    ∀ (l : List (Pubkey × AccountSharedData)) (k0 k : Nat) (ta : Pubkey × AccountSharedData),
      l[k]? = some ta →
      (mkGuestAccounts l k0)[k]? = some
        { pubkey := ta.1
          owner := ta.2.owner
          lamports := ta.2.lamports
          data :=
            { pointer := satAdd64 MM_ACCOUNTS_AREA (satMul64 MM_REGION_SIZE (k0 + k))
              length := ta.2.data.length } } := by
  intro l
  induction l with
  | nil => intro k0 k ta h; simp at h
  | cons hd rest ih =>
    intro k0 k ta h
    cases k with
    | zero =>
      simp only [List.getElem?_cons_zero, Option.some.injEq] at h
      subst h
      simp [mkGuestAccounts]
    | succ j =>
      simp only [List.getElem?_cons_succ] at h
      have hrec := ih (k0 + 1) j ta h
      simp only [mkGuestAccounts, List.getElem?_cons_succ]
      rw [hrec]
      have he : k0 + 1 + j = k0 + (j + 1) := by omega
      rw [he]

lemma tx_instr_data_area_eq : MM_TX_INSTRUCTION_DATA_AREA = IX_PAYLOAD_REGION := by
  unfold MM_TX_INSTRUCTION_DATA_AREA IX_PAYLOAD_REGION
  ring

/-- C5: immediately after `RuntimeGuestTransaction::new` (for inputs whose
address computations stay below the `u64` bound, as every validated
transaction's do), the context holds the zero pubkey and the slice
`(RETURN_DATA_BASE, 0)` in the return-data scratchpad, a `cpi_scratchpad`
equal to `(IX_PAYLOAD_BASE + num_instructions * MM_REGION_SIZE, 0)`,
`instruction_idx = 0`, `instruction_num = num_instructions` and
`accounts_no = accounts.len`; and descriptor `k` holds account `k`'s pubkey,
owner and lamports with `data.pointer = ACCOUNTS_BASE + k * MM_REGION_SIZE`
and `data.length` the payload length of account `k`. -/
theorem guest_transaction_new_context
    (accounts : List (Pubkey × AccountSharedData)) (msg : SVMMessageModel)
    (hacc : MM_ACCOUNTS_AREA + accounts.length * MM_REGION_SIZE ≤ 2 ^ 64 - 1)
    (hix : MM_TX_INSTRUCTION_DATA_AREA +
      MM_REGION_SIZE * msg.instructions.length < 2 ^ 64) :
    (RuntimeGuestTransaction.new accounts msg).ctx.return_data_scratchpad.pubkey =
      zeroPubkey ∧
    (RuntimeGuestTransaction.new accounts msg).ctx.return_data_scratchpad.slice =
      { pointer := MM_RETURN_DATA_AREA, length := 0 } ∧
    (RuntimeGuestTransaction.new accounts msg).ctx.cpi_scratchpad =
      { pointer := IX_PAYLOAD_REGION + msg.instructions.length * MM_REGION_SIZE
        length := 0 } ∧
    (RuntimeGuestTransaction.new accounts msg).ctx.instruction_idx = 0 ∧
    (RuntimeGuestTransaction.new accounts msg).ctx.instruction_num =
      msg.instructions.length ∧
    (RuntimeGuestTransaction.new accounts msg).ctx.accounts_no = accounts.length ∧
    ∀ (k : Nat) (ta : Pubkey × AccountSharedData), accounts[k]? = some ta →
      (RuntimeGuestTransaction.new accounts msg).guestAccounts[k]? = some
        { pubkey := ta.1
          owner := ta.2.owner
          lamports := ta.2.lamports
          data :=
            { pointer := MM_ACCOUNTS_AREA + k * MM_REGION_SIZE
              length := ta.2.data.length } } := by
  refine ⟨rfl, rfl, ?_, rfl, rfl, rfl, ?_⟩
  · show GuestSliceReference.mk
      ((MM_TX_INSTRUCTION_DATA_AREA + MM_REGION_SIZE * msg.instructions.length) % 2 ^ 64) 0 = _
    rw [Nat.mod_eq_of_lt hix, tx_instr_data_area_eq]
    rw [Nat.mul_comm]
  · intro k ta hk
    show (mkGuestAccounts accounts 0)[k]? = _
    rw [mkGuestAccounts_get? accounts 0 k ta hk]
    have hklen : k < accounts.length := by
      by_contra hcon
      rw [List.getElem?_eq_none (by omega)] at hk
      exact Option.noConfusion hk
    have hmul : MM_REGION_SIZE * (0 + k) ≤ 2 ^ 64 - 1 := by
      rw [Nat.zero_add]
      have : MM_REGION_SIZE * k ≤ MM_REGION_SIZE * accounts.length :=
        Nat.mul_le_mul_left _ (by omega)
      have h2 : accounts.length * MM_REGION_SIZE = MM_REGION_SIZE * accounts.length := by ring
      rw [h2] at hacc
      omega
    have hadd : MM_ACCOUNTS_AREA + MM_REGION_SIZE * (0 + k) ≤ 2 ^ 64 - 1 := by
      rw [Nat.zero_add]
      have : MM_REGION_SIZE * k ≤ MM_REGION_SIZE * accounts.length :=
        Nat.mul_le_mul_left _ (by omega)
      have h2 : accounts.length * MM_REGION_SIZE = MM_REGION_SIZE * accounts.length := by ring
      rw [h2] at hacc
      omega
    rw [satMul64_eq _ _ hmul, satAdd64_eq _ _ hadd]
    have he : MM_REGION_SIZE * (0 + k) = k * MM_REGION_SIZE := by ring
    rw [he]

/-- Builds one test account: key byte, lamports, data, executable flag, rent
epoch (owner fixed), mirroring the repository's unit-test accounts. -/
def mkTestAccount (key lam : Nat) (d : List Nat) (ex : Bool) (re : Nat) :
    Pubkey × AccountSharedData :=
  ({ bytes := [key] },
   { lamports := lam, data := d, owner := { bytes := [99] },
     executable := ex, rent_epoch := re })

/-- The six transaction accounts of the repository's unit tests (pubkeys and
owners abbreviated to distinct byte lists). -/
def testAccounts : List (Pubkey × AccountSharedData) :=
  [ mkTestAccount 10 0 [] true 0
  , mkTestAccount 11 1 [1, 2, 3, 4, 5] false 100
  , mkTestAccount 12 2 [11, 12, 13, 14, 15, 16, 17, 18, 19] true 200
  , mkTestAccount 13 3 [] false 300
  , mkTestAccount 14 4 [1, 2, 3, 4, 5] false 100
  , mkTestAccount 15 5 [11, 12, 13, 14, 15, 16, 17, 18, 19] true 200 ]

theorem guest_transaction_new_context_witness :
    (RuntimeGuestTransaction.new testAccounts testMsg).ctx.accounts_no = 6 ∧
    (RuntimeGuestTransaction.new testAccounts testMsg).guestAccounts[1]? = some
      { pubkey := { bytes := [11] }
        owner := { bytes := [99] }
        lamports := 1
        data :=
          { pointer := MM_ACCOUNTS_AREA + 1 * MM_REGION_SIZE
            length := 5 } } := by
  have h := guest_transaction_new_context testAccounts testMsg (by decide) (by decide)
  exact ⟨h.2.2.2.2.2.1, h.2.2.2.2.2.2 1 (mkTestAccount 11 1 [1, 2, 3, 4, 5] false 100) rfl⟩

lemma pubkeyBytes_length (p : Pubkey) : (pubkeyBytes p).length = 32 := by
  simp only [pubkeyBytes, List.length_append, List.length_take, List.length_replicate]
  omega

lemma sliceBytes_length (s : GuestSliceReference) : (sliceBytes s).length = 16 := rfl

lemma u64le_length (n : Nat) : (u64le n).length = 8 := rfl

lemma rawMetadata_decomp (tx : RuntimeGuestTransaction) :
    rawMetadata tx =
      (pubkeyBytes tx.ctx.return_data_scratchpad.pubkey ++
        (sliceBytes tx.ctx.return_data_scratchpad.slice ++
          sliceBytes tx.ctx.cpi_scratchpad)) ++
      (u64le tx.ctx.instruction_idx ++
        (u64le tx.ctx.instruction_num ++
          (u64le tx.ctx.accounts_no ++
            (tx.guestAccounts.map guestAccountBytes).flatten))) := by
  simp [rawMetadata, ctxBytes, List.append_assoc]

lemma frame_outside_window (P M M2 Q : List Nat)
    (hP : P.length = 64) (hM : M.length = 8) (hM2 : M2.length = 8) (i : Nat)
    (h : i < 64 ∨ 72 ≤ i) :
    (P ++ (M ++ Q))[i]? = (P ++ (M2 ++ Q))[i]? := by
  rcases h with h | h
  · have h1 : i < P.length := by omega
    simp only [List.getElem?_append]
    rw [if_pos h1, if_pos h1]
  · have h1 : P.length ≤ i := by omega
    rw [List.getElem?_append_right h1, List.getElem?_append_right h1]
    have h2 : M.length ≤ i - P.length := by omega
    have h3 : M2.length ≤ i - P.length := by omega
    rw [List.getElem?_append_right h2, List.getElem?_append_right h3, hM, hM2]

lemma window_bytes (P M Q : List Nat) (hP : P.length = 64) (hM : M.length = 8)
    (j : Nat) (hj : j < 8) : (P ++ (M ++ Q))[64 + j]? = M[j]? := by
  have h1 : P.length ≤ 64 + j := by omega
  rw [List.getElem?_append_right h1, hP]
  have h2 : 64 + j - 64 = j := by omega
  rw [h2, List.getElem?_append, if_pos (by omega : j < M.length)]

/-- C8: after `set_instruction_index(n)`, re-reading the context buffer
yields `instruction_idx = n` (the field itself, and the eight bytes of the
`instruction_idx` slot at offsets 64..72 hold exactly the little-endian
encoding of `n`), and every byte of the context buffer outside that slot is
unchanged. -/
theorem set_instruction_index_frame (tx : RuntimeGuestTransaction) (n : Nat) :
    (tx.set_instruction_index n).ctx.instruction_idx = n ∧
    (∀ j, j < 8 →
      (rawMetadata (tx.set_instruction_index n))[64 + j]? = (u64le n)[j]?) ∧
    (∀ i, i < 64 ∨ 72 ≤ i →
      (rawMetadata (tx.set_instruction_index n))[i]? = (rawMetadata tx)[i]?) := by
  refine ⟨rfl, ?_, ?_⟩
  · intro j hj
    rw [rawMetadata_decomp]
    exact window_bytes _ _ _
      (by simp [pubkeyBytes_length, sliceBytes_length]) (u64le_length n) j hj
  · intro i hi
    rw [rawMetadata_decomp tx, rawMetadata_decomp (tx.set_instruction_index n)]
    exact frame_outside_window _ _ _ _
      (by simp [pubkeyBytes_length, sliceBytes_length])
      (u64le_length n) (u64le_length tx.ctx.instruction_idx) i hi

theorem set_instruction_index_frame_witness :
    (rawMetadata ((RuntimeGuestTransaction.new testAccounts
      testMsg).set_instruction_index 80))[0]? =
      (rawMetadata (RuntimeGuestTransaction.new testAccounts testMsg))[0]? :=
  (set_instruction_index_frame (RuntimeGuestTransaction.new testAccounts testMsg)
    80).2.2 0 (Or.inl (by omega))

lemma new_ix_metadata_length (accounts : List (Pubkey × AccountSharedData))
    (msg : SVMMessageModel) :
    (RuntimeGuestTransaction.new accounts msg).ix_metadata.length =
      msg.instructions.length := by
  show (create_ix_array msg).1.length = msg.instructions.length
  exact createIxAux_fst_length msg msg.instructions 0 IX_ACCOUNTS_REGION

/-- C9: `set_instruction_index` performs no validity check: on any built
transaction it accepts every index `n` (including `n` at or past the number
of instructions) and stores it in the context; a subsequent
`retrieve_instruction` — and hence `prepare_regions`, which calls it first —
then panics (modelled as `none`) by indexing the descriptor array out of
bounds exactly when the stored index is not below the number of
instructions. -/
theorem set_instruction_index_unchecked
    (accounts : List (Pubkey × AccountSharedData)) (msg : SVMMessageModel)
    (n : Nat) :
    ((RuntimeGuestTransaction.new accounts msg).set_instruction_index
      n).ctx.instruction_idx = n ∧
    (msg.instructions.length ≤ n →
      ((RuntimeGuestTransaction.new accounts msg).set_instruction_index
        n).retrieve_instruction = none ∧
      ((RuntimeGuestTransaction.new accounts msg).set_instruction_index
        n).prepare_regions = none) ∧
    (n < msg.instructions.length →
      (((RuntimeGuestTransaction.new accounts msg).set_instruction_index
        n).retrieve_instruction).isSome = true) := by
  refine ⟨rfl, ?_, ?_⟩
  · intro hge
    have hlen : ((RuntimeGuestTransaction.new accounts
        msg).set_instruction_index n).ix_metadata.length ≤ n := by
      show (RuntimeGuestTransaction.new accounts msg).ix_metadata.length ≤ n
      rw [new_ix_metadata_length]
      exact hge
    have hr : ((RuntimeGuestTransaction.new accounts msg).set_instruction_index
        n).retrieve_instruction = none := by
      unfold RuntimeGuestTransaction.retrieve_instruction
      exact List.getElem?_eq_none hlen
    refine ⟨hr, ?_⟩
    unfold RuntimeGuestTransaction.prepare_regions
    rw [hr]
  · intro hlt
    have hlen : n < ((RuntimeGuestTransaction.new accounts
        msg).set_instruction_index n).ix_metadata.length := by
      show n < (RuntimeGuestTransaction.new accounts msg).ix_metadata.length
      rw [new_ix_metadata_length]
      exact hlt
    show ((((RuntimeGuestTransaction.new accounts msg).set_instruction_index
      n).ix_metadata[n]?).isSome) = true
    rw [List.getElem?_eq_getElem hlen]
    rfl

theorem set_instruction_index_unchecked_witness :
    ((RuntimeGuestTransaction.new testAccounts testMsg).set_instruction_index
      80).retrieve_instruction = none :=
  ((set_instruction_index_unchecked testAccounts testMsg 80).2.1
    (by decide)).1

/-- A minimal well-formed message for exercising `prepare_regions`: one
instruction referencing transaction accounts 1, 2 and 1 again (account 1
writable, account 2 read-only), all indices in range of the account list. -/
def c1msg : SVMMessageModel :=
  { instructions :=
      [ { program_id_index := 0, accounts := [1, 2, 1], data := [7, 8] } ]
    is_signer := fun i => i == 2
    is_writable := fun i => i == 1 }

/-- Three transaction accounts matching `c1msg`. -/
def c1accounts : List (Pubkey × AccountSharedData) :=
  [ mkTestAccount 20 0 [1, 2] false 0
  , mkTestAccount 21 1 [3] false 0
  , mkTestAccount 22 2 [] false 0 ]

/-- The built transaction for `c1accounts`/`c1msg`; after build
`instruction_idx = 0`, a valid instruction index. -/
def c1tx : RuntimeGuestTransaction := RuntimeGuestTransaction.new c1accounts c1msg

/-- C1 (code bug evidence): on a built transaction whose current instruction
references accounts 1 and 2 (account 1 writable), `prepare_regions` returns
only the three header regions followed by the per-instruction payload
regions — it returns no region at `ACCOUNTS_BASE + k * MM_REGION_SIZE` for
any referenced account `k` and no writable region at all, because the source
constructs the per-account regions but never pushes them into the output
vector. -/
theorem prepare_regions_omits_account_regions :
    (RuntimeGuestTransaction.prepare_regions c1tx).map
      (fun rs => rs.map (fun r => (r.vmAddr, r.writable))) =
      some [(MM_TX_AREA, false), (MM_TX_INSTRUCTION_AREA, false),
        (MM_TX_INSTRUCTION_DATA_AREA, false),
        (MM_TX_INSTRUCTION_DATA_AREA, false)] ∧
    (RuntimeGuestTransaction.prepare_regions c1tx).map
      (fun rs => rs.any (fun r =>
        decide (r.vmAddr = MM_ACCOUNTS_AREA + 1 * MM_REGION_SIZE) ||
        decide (r.vmAddr = MM_ACCOUNTS_AREA + 2 * MM_REGION_SIZE) ||
        r.writable)) = some false := by
  decide

/-- The `solana_instruction::error::InstructionError` variants surfaced by
this core. -/
inductive InstructionError where
  | MissingAccount
  | AccountBorrowFailed
  | InvalidRealloc
  | MaxAccountsDataAllocationsExceeded
  | ArithmeticOverflow
deriving DecidableEq, Repr

/-- `i8::checked_add`. -/
def checkedAddI8 (a b : Int) : Option Int :=
  if -128 ≤ a + b ∧ a + b ≤ 127 then some (a + b) else none

/-- `i8::saturating_sub`. -/
def satSubI8 (a b : Int) : Int := max (-128) (min 127 (a - b))

/-- `i8::saturating_add`. -/
def satAddI8 (a b : Int) : Int := max (-128) (min 127 (a + b))

/-- `BorrowCounter::is_writing`: the cell is negative. -/
def BorrowCounter.is_writing (c : Int) : Bool := c < 0

/-- `BorrowCounter::is_reading`: the cell is positive. -/
def BorrowCounter.is_reading (c : Int) : Bool := c > 0

/-- `BorrowCounter::try_borrow` of `transaction_accounts.rs`, as a function
of the cell value: fails if a writer holds the cell or the `i8` increment
overflows, otherwise returns the incremented cell. -/
def BorrowCounter.try_borrow (c : Int) : Except InstructionError Int :=
  if BorrowCounter.is_writing c then .error .AccountBorrowFailed
  else
    match checkedAddI8 c 1 with
    | some c2 => .ok c2
    | none => .error .AccountBorrowFailed

/-- `BorrowCounter::try_borrow_mut` of `transaction_accounts.rs`: fails if a
writer or any reader holds the cell, otherwise decrements it (saturating). -/
def BorrowCounter.try_borrow_mut (c : Int) : Except InstructionError Int :=
  if BorrowCounter.is_writing c || BorrowCounter.is_reading c then
    .error .AccountBorrowFailed
  else .ok (satSubI8 c 1)

/-- `BorrowCounter::release_borrow`. -/
def BorrowCounter.release_borrow (c : Int) : Int := satSubI8 c 1

/-- `BorrowCounter::release_borrow_mut`. -/
def BorrowCounter.release_borrow_mut (c : Int) : Int := satAddI8 c 1

/-- `n` consecutive `try_borrow` calls starting from cell value `c`,
stopping at the first failure. -/
def borrowNTimes : Nat → Int → Except InstructionError Int
  | 0, c => .ok c
  | n + 1, c =>
    match BorrowCounter.try_borrow c with
    | .ok c2 => borrowNTimes n c2
    | .error e => .error e

/-- C4: on every `i8` cell state (in particular every reachable one),
`try_borrow` succeeds — incrementing the reader count — exactly when no
writer holds the counter and the reader count is below 127, and fails with
`AccountBorrowFailed` otherwise; `try_borrow_mut` succeeds exactly when the
counter is free and fails with `AccountBorrowFailed` otherwise; and from a
free counter 127 consecutive `try_borrow` calls succeed while the 128th
fails with `AccountBorrowFailed`. -/
theorem borrow_counter_protocol (c : Int) (hlo : -128 ≤ c) (hhi : c ≤ 127) :
    (BorrowCounter.is_writing c = false ∧ c < 127 →
      BorrowCounter.try_borrow c = .ok (c + 1)) ∧
    (BorrowCounter.is_writing c = true ∨ 127 ≤ c →
      BorrowCounter.try_borrow c = .error .AccountBorrowFailed) ∧
    (BorrowCounter.try_borrow_mut c = .ok (-1) ↔ c = 0) ∧
    (c ≠ 0 → BorrowCounter.try_borrow_mut c = .error .AccountBorrowFailed) ∧
    borrowNTimes 127 0 = .ok 127 ∧
    borrowNTimes 128 0 = .error .AccountBorrowFailed := by
  refine ⟨?_, ?_, ?_, ?_, by rfl, by rfl⟩
  · intro h
    obtain ⟨hw, hc⟩ := h
    have hpos : ¬ c < 0 := by
      simpa [BorrowCounter.is_writing] using hw
    unfold BorrowCounter.try_borrow checkedAddI8
    rw [if_neg (by simpa [BorrowCounter.is_writing] using hpos)]
    rw [if_pos (by omega)]
  · intro h
    unfold BorrowCounter.try_borrow checkedAddI8
    rcases h with h | h
    · rw [if_pos h]
    · have hw : BorrowCounter.is_writing c = false := by
        simp [BorrowCounter.is_writing]
        omega
      rw [if_neg (by simp [hw])]
      rw [if_neg (by omega)]
  · constructor
    · intro h
      unfold BorrowCounter.try_borrow_mut at h
      by_cases hc : c = 0
      · exact hc
      · exfalso
        have : BorrowCounter.is_writing c = true ∨ BorrowCounter.is_reading c = true := by
          unfold BorrowCounter.is_writing BorrowCounter.is_reading
          rcases lt_trichotomy c 0 with h1 | h1 | h1
          · left; simpa using h1
          · exact absurd h1 hc
          · right; simpa using h1
        rcases this with h1 | h1 <;>
          simp [h1] at h
    · intro h
      subst h
      rfl
  · intro hc
    unfold BorrowCounter.try_borrow_mut
    rw [if_pos]
    unfold BorrowCounter.is_writing BorrowCounter.is_reading
    rcases lt_trichotomy c 0 with h1 | h1 | h1
    · simp [h1]
    · exact absurd h1 hc
    · simp [h1]

theorem borrow_counter_protocol_witness :
    BorrowCounter.try_borrow 0 = .ok 1 :=
  (borrow_counter_protocol 0 (by decide) (by decide)).1 ⟨by decide, by decide⟩

/-- `MAX_ACCOUNT_DATA_LEN`: absolute payload cap.  Modelled from the spec:
the constant lives in the crate root of `transaction-context`, which is not
part of the analysed sources; the upstream value is 10 MiB.  The claims only
compare against it symbolically. -/
def MAX_ACCOUNT_DATA_LEN : Nat := 10 * 1024 * 1024

/-- `MAX_ACCOUNT_DATA_GROWTH_PER_TRANSACTION`: per-transaction growth cap
(`i64`).  Modelled from the spec: the constant lives in the crate root of
`transaction-context`, which is not part of the analysed sources; the
upstream value is twice the payload cap. -/
def MAX_ACCOUNT_DATA_GROWTH_PER_TRANSACTION : Int := 2 * (10 * 1024 * 1024)

/-- The `usize → i64` `as` cast (two's-complement wrapping). -/
def usizeToI64 (n : Nat) : Int :=
  if n % 2 ^ 64 < 2 ^ 63 then ((n % 2 ^ 64 : Nat) : Int)
  else ((n % 2 ^ 64 : Nat) : Int) - 2 ^ 64

/-- `i64::saturating_sub`. -/
def satSubI64 (a b : Int) : Int := max (-(2 ^ 63)) (min (2 ^ 63 - 1) (a - b))

/-- `i64::saturating_add`. -/
def satAddI64 (a b : Int) : Int := max (-(2 ^ 63)) (min (2 ^ 63 - 1) (a + b))

/-- `SVMAccount` of `transaction_accounts.rs` (hot metadata). -/
structure SVMAccount where
  key : Pubkey
  owner : Pubkey
  lamports : Nat
deriving DecidableEq, Repr

/-- `SVMAccountDeprecated` of `transaction_accounts.rs` (legacy fields). -/
structure SVMAccountDeprecated where
  rent_epoch : Nat
  executable : Bool
deriving DecidableEq, Repr

/-- `PrivateAccountFields` of `transaction_accounts.rs`. -/
structure PrivateAccountFields where
  deprecated_fields : SVMAccountDeprecated
  payload : List Nat
deriving DecidableEq, Repr

/-- `TransactionAccounts` of `transaction_accounts.rs`: the split-column
account table, the borrow-counter cells (`i8`), the sticky touched flags and
the two running deltas (`i64` and `i128`). -/
structure TransactionAccounts where
  shared_account_metadata : List SVMAccount
  private_account_fields : List PrivateAccountFields
  borrow_counters : List Int
  touched_flags : List Bool
  resize_delta : Int
  lamports_delta : Int
deriving DecidableEq, Repr

/-- `TransactionAccounts::new`: splits each loaded account into its hot
metadata and private fields, with fresh borrow counters, cleared touched
flags and zero deltas. -/
def TransactionAccounts.new (accounts : List (Pubkey × AccountSharedData)) :
    TransactionAccounts :=
  { shared_account_metadata :=
      accounts.map (fun item =>
        { key := item.1, owner := item.2.owner, lamports := item.2.lamports })
    private_account_fields :=
      accounts.map (fun item =>
        { deprecated_fields :=
            { rent_epoch := item.2.rent_epoch, executable := item.2.executable }
          payload := item.2.data })
    borrow_counters := accounts.map (fun _ => 0)
    touched_flags := accounts.map (fun _ => false)
    resize_delta := 0
    lamports_delta := 0 }

/-- `TransactionAccounts::can_data_be_resized`, with the state threaded
through to make its read-only character a statement: the source only reads
`resize_delta` via `Cell::get`. -/
def TransactionAccounts.can_data_be_resized (ta : TransactionAccounts)
    (old_len new_len : Nat) : TransactionAccounts × Except InstructionError Unit :=
  if new_len > MAX_ACCOUNT_DATA_LEN then (ta, .error .InvalidRealloc)
  else
    let length_delta := satSubI64 (usizeToI64 new_len) (usizeToI64 old_len)
    if satAddI64 ta.resize_delta length_delta > MAX_ACCOUNT_DATA_GROWTH_PER_TRANSACTION
    then (ta, .error .MaxAccountsDataAllocationsExceeded)
    else (ta, .ok ())

/-- `TransactionAccounts::try_borrow`, reduced to its observable state
effect: on a missing index or a counter conflict it returns the error and
touches nothing, otherwise it increments the account's borrow counter (the
returned lease exposes the account views, which involve no further state
change). -/
def TransactionAccounts.try_borrow (ta : TransactionAccounts) (index : Nat) :
    TransactionAccounts × Except InstructionError Unit :=
  match ta.borrow_counters[index]? with
  | none => (ta, .error .MissingAccount)
  | some c =>
    match BorrowCounter.try_borrow c with
    | .error e => (ta, .error e)
    | .ok c2 =>
      ({ ta with borrow_counters := ta.borrow_counters.set index c2 }, .ok ())

/-- `TransactionAccounts::try_borrow_mut`, reduced to its observable state
effect in the same way. -/
def TransactionAccounts.try_borrow_mut (ta : TransactionAccounts) (index : Nat) :
    TransactionAccounts × Except InstructionError Unit :=
  match ta.borrow_counters[index]? with
  | none => (ta, .error .MissingAccount)
  | some c =>
    match BorrowCounter.try_borrow_mut c with
    | .error e => (ta, .error e)
    | .ok c2 =>
      ({ ta with borrow_counters := ta.borrow_counters.set index c2 }, .ok ())

/-- Modelled from the spec: `into_account_shared_data` — the source body is
an unfinished stub (it maps each column pair to the unapplied name
`AccountSharedData::shared` and never collects) — per the spec it must
consume the store and return the reassembled `(pubkey, payload, owner,
lamports, rent_epoch, executable)` tuples, column pair by column pair. -/
def TransactionAccounts.into_account_shared_data_spec (ta : TransactionAccounts) :
    List (Pubkey × AccountSharedData) :=
  (ta.shared_account_metadata.zip ta.private_account_fields).map (fun sp =>
    (sp.1.key,
     { lamports := sp.1.lamports
       data := sp.2.payload
       owner := sp.1.owner
       executable := sp.2.deprecated_fields.executable
       rent_epoch := sp.2.deprecated_fields.rent_epoch }))

/-- C7 (intended contract): building the store and immediately reassembling
the account list, with no writes in between, returns the original inputs
exactly — every field round-trips through the split representation. -/
theorem into_account_shared_data_roundtrip
    (accounts : List (Pubkey × AccountSharedData)) :
    (TransactionAccounts.new accounts).into_account_shared_data_spec = accounts := by
  induction accounts with
  | nil => rfl
  | cons hd tl ih =>
    obtain ⟨p, asd⟩ := hd
    obtain ⟨l, d, o, e, r⟩ := asd
    simp only [TransactionAccounts.new,
      TransactionAccounts.into_account_shared_data_spec, List.map_cons,
      List.zip_cons_cons] at ih ⊢
    rw [List.cons_eq_cons]
    exact ⟨rfl, ih⟩

lemma usizeToI64_small (n : Nat) (h : n < 2 ^ 63) : usizeToI64 n = (n : Int) := by
  unfold usizeToI64
  rw [Nat.mod_eq_of_lt (by omega)]
  rw [if_pos h]

/-- C6 counterexample: at `old_len = 2^63` (with `new_len = 0` and a fresh
store whose running `resize_delta` is `0`) the claim's success conditions
hold — `new_len` is within the absolute cap and
`resize_delta + (new_len - old_len)` is far below the growth cap — yet
`can_data_be_resized` returns `MaxAccountsDataAllocationsExceeded`, because
the `usize → i64` cast of `old_len` wraps to `-2^63` and the saturating
subtraction then saturates the length delta to `i64::MAX`. -/
theorem can_data_be_resized_cast_counterexample :
    ((TransactionAccounts.new []).can_data_be_resized (2 ^ 63) 0).2 =
      .error .MaxAccountsDataAllocationsExceeded ∧
    (0 : Nat) ≤ MAX_ACCOUNT_DATA_LEN ∧
    (TransactionAccounts.new []).resize_delta +
      ((0 : Int) - 2 ^ 63) ≤ MAX_ACCOUNT_DATA_GROWTH_PER_TRANSACTION := by
  refine ⟨?_, by decide, by decide⟩
  unfold TransactionAccounts.can_data_be_resized
  rw [if_neg (by decide)]
  rw [if_pos ?hcap]
  case hcap =>
    have h1 : usizeToI64 0 = 0 := by decide
    have h2 : usizeToI64 (2 ^ 63) = -(2 ^ 63) := by
      unfold usizeToI64
      norm_num
    rw [h1, h2]
    have h3 : satSubI64 0 (-(2 ^ 63)) = 2 ^ 63 - 1 := by
      unfold satSubI64
      norm_num
    rw [h3]
    show satAddI64 (TransactionAccounts.new []).resize_delta (2 ^ 63 - 1) >
      MAX_ACCOUNT_DATA_GROWTH_PER_TRANSACTION
    have h4 : (TransactionAccounts.new []).resize_delta = 0 := rfl
    rw [h4]
    unfold satAddI64 MAX_ACCOUNT_DATA_GROWTH_PER_TRANSACTION
    norm_num

/-- C6 (amended): for every `old_len` representable in `i64`
(`old_len < 2^63`; larger values make the source's `as i64` cast wrap),
every `new_len` and every running delta, `can_data_be_resized` returns `InvalidRealloc`
exactly when `new_len` exceeds the absolute payload cap, otherwise returns
`MaxAccountsDataAllocationsExceeded` exactly when the running `resize_delta`
plus `new_len - old_len` would exceed the per-transaction growth cap, and
otherwise succeeds; the state — in particular `resize_delta` — is never
modified by the check. -/
theorem can_data_be_resized_spec (ta : TransactionAccounts) (old_len new_len : Nat)
    (hold : old_len < 2 ^ 63) :
    (ta.can_data_be_resized old_len new_len).1 = ta ∧
    ((ta.can_data_be_resized old_len new_len).2 = .error .InvalidRealloc ↔
      MAX_ACCOUNT_DATA_LEN < new_len) ∧
    (new_len ≤ MAX_ACCOUNT_DATA_LEN →
      ((ta.can_data_be_resized old_len new_len).2 =
          .error .MaxAccountsDataAllocationsExceeded ↔
        MAX_ACCOUNT_DATA_GROWTH_PER_TRANSACTION <
          ta.resize_delta + ((new_len : Int) - (old_len : Int)))) ∧
    (new_len ≤ MAX_ACCOUNT_DATA_LEN →
      ta.resize_delta + ((new_len : Int) - (old_len : Int)) ≤
        MAX_ACCOUNT_DATA_GROWTH_PER_TRANSACTION →
      (ta.can_data_be_resized old_len new_len).2 = .ok ()) := by
  by_cases hbig : new_len > MAX_ACCOUNT_DATA_LEN
  · unfold TransactionAccounts.can_data_be_resized
    rw [if_pos hbig]
    refine ⟨rfl, ?_, ?_, ?_⟩
    · constructor
      · intro _; omega
      · intro _; rfl
    · intro hle; exact absurd hbig (by omega)
    · intro hle; exact absurd hbig (by omega)
  · push_neg at hbig
    have hnew63 : new_len < 2 ^ 63 := by
      have hm : MAX_ACCOUNT_DATA_LEN < 2 ^ 63 := by decide
      omega
    have hdelta : satSubI64 (usizeToI64 new_len) (usizeToI64 old_len) =
        (new_len : Int) - (old_len : Int) := by
      rw [usizeToI64_small _ hnew63, usizeToI64_small _ hold]
      unfold satSubI64
      have h1 : (new_len : Int) - (old_len : Int) ≤ 2 ^ 63 - 1 := by
        have hx : (new_len : Int) < 2 ^ 63 := by exact_mod_cast hnew63
        omega
      have h2 : -(2 ^ 63) ≤ (new_len : Int) - (old_len : Int) := by
        have hx : (old_len : Int) < 2 ^ 63 := by exact_mod_cast hold
        omega
      rw [min_eq_right h1, max_eq_right h2]
    have hsum : (satAddI64 ta.resize_delta ((new_len : Int) - (old_len : Int)) >
        MAX_ACCOUNT_DATA_GROWTH_PER_TRANSACTION) ↔
        (ta.resize_delta + ((new_len : Int) - (old_len : Int)) >
          MAX_ACCOUNT_DATA_GROWTH_PER_TRANSACTION) := by
      unfold satAddI64 MAX_ACCOUNT_DATA_GROWTH_PER_TRANSACTION
      rcases le_total (ta.resize_delta + ((new_len : Int) - (old_len : Int)))
        (2 ^ 63 - 1) with hc | hc
      · rw [min_eq_right hc]
        rcases le_total (-(2 ^ 63) : Int)
          (ta.resize_delta + ((new_len : Int) - (old_len : Int))) with hc2 | hc2
        · rw [max_eq_right hc2]
        · rw [max_eq_left hc2]
          constructor
          · intro hx; omega
          · intro hx; omega
      · rw [min_eq_left hc]
        rw [max_eq_right (by omega)]
        constructor
        · intro hx; omega
        · intro hx; omega
    unfold TransactionAccounts.can_data_be_resized
    rw [if_neg (by omega)]
    simp only [hdelta]
    by_cases hcap : satAddI64 ta.resize_delta ((new_len : Int) - (old_len : Int)) >
        MAX_ACCOUNT_DATA_GROWTH_PER_TRANSACTION
    · rw [if_pos hcap]
      refine ⟨rfl, ?_, ?_, ?_⟩
      · constructor
        · intro hx
          exact InstructionError.noConfusion (Except.error.inj hx)
        · intro hx; exact absurd hx (by omega)
      · intro hle
        constructor
        · intro _; exact hsum.mp hcap
        · intro _; rfl
      · intro hle hok
        exact absurd (hsum.mp hcap) (by omega)
    · rw [if_neg hcap]
      refine ⟨rfl, ?_, ?_, ?_⟩
      · constructor
        · intro hx; exact Except.noConfusion hx
        · intro hx; exact absurd hx (by omega)
      · intro hle
        constructor
        · intro hx; exact Except.noConfusion hx
        · intro hx; exact absurd (hsum.mpr hx) hcap
      · intro hle hok
        rfl

theorem can_data_be_resized_spec_witness :
    ((TransactionAccounts.new []).can_data_be_resized 0 5).2 = .ok () :=
  (can_data_be_resized_spec (TransactionAccounts.new []) 0 5
    (by decide)).2.2.2 (by decide) (by decide)

/-- C10: every failing borrow operation leaves the store unchanged — when
`try_borrow` or `try_borrow_mut` returns `MissingAccount` or
`AccountBorrowFailed` (any error), no borrow counter, account column,
payload, touched flag or delta is altered. -/
theorem store_borrow_error_atomic (ta : TransactionAccounts) (index : Nat)
    (e : InstructionError) :
    ((ta.try_borrow index).2 = .error e → (ta.try_borrow index).1 = ta) ∧
    ((ta.try_borrow_mut index).2 = .error e → (ta.try_borrow_mut index).1 = ta) := by
  constructor
  · intro h
    unfold TransactionAccounts.try_borrow at h ⊢
    cases hg : ta.borrow_counters[index]? with
    | none => simp [hg]
    | some c =>
      cases hb : BorrowCounter.try_borrow c with
      | error e2 => simp [hg, hb]
      | ok c2 =>
        rw [hg] at h
        simp only [hb] at h
        exact Except.noConfusion h
  · intro h
    unfold TransactionAccounts.try_borrow_mut at h ⊢
    cases hg : ta.borrow_counters[index]? with
    | none => simp [hg]
    | some c =>
      cases hb : BorrowCounter.try_borrow_mut c with
      | error e2 => simp [hg, hb]
      | ok c2 =>
        rw [hg] at h
        simp only [hb] at h
        exact Except.noConfusion h

theorem store_borrow_error_atomic_witness :
    ((TransactionAccounts.new (c1accounts.take 2)).try_borrow 3).1 =
      TransactionAccounts.new (c1accounts.take 2) :=
  (store_borrow_error_atomic (TransactionAccounts.new (c1accounts.take 2)) 3
    InstructionError.MissingAccount).1 (by rfl)
